import Mathlib

/-!
Verification development for the Mnemy save-synchronization engine.

The Python sources are shallowly embedded as Lean definitions:

* `splitFirst` / `pySplit` model Python `str.split(sep)` for a non-empty
  separator, over `List Char` (Python strings are sequences of code points).
* `FSTree`, `scanList`, `hash_generator` embed `modules/file_manager.py`,
  `hash_generator` (recursive `os.scandir` walk computing an md5 digest per
  regular file, keyed by `entry.path.split(dir_name)[1]`).
* `load_host`, `make_request`, `check_files`, `upload_files_streaming`
  embed the corresponding methods of `modules/API_client.py` (`APIClient`),
  with the filesystem, keyring, and HTTP server supplied as environment data.
* `get_utc_time`, `download_saves_action`, `sync_saves_action` embed
  `modules/ui_controllers/main_controller.py`; `sync_saves_action` returns
  the sequence of externally visible calls it performs plus its outcome.
* `normalize_name`, `check_process`, `monitor_processes` embed
  `modules/processes_watcher.py` (`ProcessWatcher`).
* `get_archive_chunks` embeds the archive extractor of
  `modules/file_manager.py`, as the sequence of filesystem actions performed.

Exceptions are modelled with `Except`/`Option`; Python dict insertion is
`dictInsert` (insertion order preserved, overwrite in place).
-/

/-- Leftmost occurrence of `sep` in a character list: `splitFirst sep s`
returns `some (before, after)` when `sep` occurs in `s` (scanning left to
right), and `none` otherwise.  This is the single step of Python
`str.split`. -/
def splitFirst (sep : List Char) : List Char → Option (List Char × List Char)
  | [] => if sep.isPrefixOf [] then some ([], []) else none
  | c :: t =>
    if sep.isPrefixOf (c :: t) then some ([], (c :: t).drop sep.length)
    else (splitFirst sep t).map (fun p => (c :: p.1, p.2))

/-- Fuelled splitting loop; the fuel only bounds the number of split steps
and is never exhausted when it starts at the length of the string, since
each step with a non-empty separator strictly shortens the remainder. -/
def pySplitAux (sep : List Char) : Nat → List Char → List (List Char)
  | 0, s => [s]
  | fuel + 1, s =>
    match splitFirst sep s with
    | none => [s]
    | some (a, b) => a :: pySplitAux sep fuel b

/-- Python `s.split(sep)` for a non-empty separator `sep` (Python raises
`ValueError` on an empty separator; theorems about the hasher therefore
assume the separator is non-empty). -/
def pySplit (sep s : List Char) : List (List Char) := pySplitAux sep s.length s

/-- Whether `sep` occurs somewhere in `l` (as a contiguous run). -/
def occurs (sep l : List Char) : Bool := (splitFirst sep l).isSome

/-- A directory tree as seen by the recursive `os.scandir` walk of
`hash_generator` (file_manager.py).  A file's content is `none` when the
file is unreadable, in which case `open` raises an `OSError` carrying the
path. -/
inductive FSTree where
  | file (name : String) (content : Option (List Nat))
  | dir (name : String) (children : List FSTree)

/-- Python dict assignment `m[k] = v`: overwrite in place if the key is
present, otherwise append (dicts preserve insertion order). -/
def dictInsert (m : List (List Char × String)) (k : List Char) (v : String) :
    List (List Char × String) :=
  if m.any (fun p => p.1 == k) then m.map (fun p => if p.1 == k then (k, v) else p)
  else m ++ [(k, v)]

/-- The `scan_directory` closure of `hash_generator` (file_manager.py lines
16-24): walk the entries of `path` in order; for a regular file compute
`entry.path.split(dir_name)[1]` as the key and store the digest of its
content; recurse into subdirectories.  An unreadable file aborts the whole
walk with an error naming its path (the `open` raises, and there is no
handler inside `hash_generator`).  `digest` stands for
`hashlib.file_digest(file, md5).hexdigest()`.  The `getD 1 []` models the
`[1]` index; for a non-empty root component the split always has a second
element because the component is a suffix of the base directory. -/
def scanList (digest : List Nat → String) (dirName : List Char) :
    List Char → List (List Char × String) → List FSTree →
      Except (List Char) (List (List Char × String))
  | _, acc, [] => .ok acc
  | path, _, .file n none :: _ => .error (path ++ '/' :: n.data)
  | path, acc, .file n (some c) :: rest =>
    scanList digest dirName path
      (dictInsert acc ((pySplit dirName (path ++ '/' :: n.data)).getD 1 []) (digest c)) rest
  | path, acc, .dir n ch :: rest =>
    match scanList digest dirName (path ++ '/' :: n.data) acc ch with
    | .error e => .error e
    | .ok acc2 => scanList digest dirName path acc2 rest

/-- `hash_generator(base_dir)` of file_manager.py lines 10-27:
`dir_name = base_dir.split("/")[-1]`, then the recursive scan starting at
`base_dir`, returning the accumulated dict (or propagating the first
filesystem error). -/
def hash_generator (digest : List Nat → String) (baseDir : String) (entries : List FSTree) :
    Except (List Char) (List (List Char × String)) :=
  scanList digest ((pySplit ['/'] baseDir.data).getLastD []) baseDir.data [] entries

/-- Modelled from the spec (the FileDigestMap contract): one pair per
regular file in walk order, keyed by the file's path relative to the sync
root with the leading forward slash retained, valued at the digest of its
content.  Used as the reference map the code is compared against. -/
def specPairs (digest : List Nat → String) : List Char → List FSTree → List (List Char × String)
  | _, [] => []
  | pre, .file n c :: rest => (pre ++ '/' :: n.data, digest (c.getD [])) :: specPairs digest pre rest
  | pre, .dir n ch :: rest => specPairs digest (pre ++ '/' :: n.data) ch ++ specPairs digest pre rest

/-- Every file in the subtree is readable. -/
def allReadable : List FSTree → Bool
  | [] => true
  | .file _ c :: rest => c.isSome && allReadable rest
  | .dir _ ch :: rest => allReadable ch && allReadable rest

/-- The path of the first unreadable file in walk order, if any — the path
named by the `OSError` that aborts `hash_generator`. -/
def firstUnreadable : List Char → List FSTree → Option (List Char)
  | _, [] => none
  | path, .file n none :: _ => some (path ++ '/' :: n.data)
  | path, .file _ (some _) :: rest => firstUnreadable path rest
  | path, .dir n ch :: rest =>
    match firstUnreadable (path ++ '/' :: n.data) ch with
    | some p => some p
    | none => firstUnreadable path rest

/-- State of the JSON settings file read by `APIClient.load_host`
(API_client.py lines 25-35): the file may be absent, present (with the
`host` key present or not), or unreadable (any exception while opening or
parsing). -/
inductive ConfigFile where
  | absent
  | present (host : Option String)
  | unreadable
deriving DecidableEq

/-- Python value returned by `load_host`: either the host string from the
config (`config.get("host", "")`), or a boolean — `True` when the config
file does not exist, `False` when reading it raised. -/
inductive HostVal where
  | str (s : String)
  | bool (b : Bool)
deriving DecidableEq

/-- `APIClient.load_host` (API_client.py lines 25-35): returns
`config.get("host", "")` when the file exists, `True` when it does not,
and `False` on any exception. -/
def load_host : ConfigFile → HostVal
  | .absent => .bool true
  | .present h => .str (h.getD "")
  | .unreadable => .bool false

/-- Python truthiness of the value held in `self.host`: a string is truthy
iff non-empty, a boolean is its own truth value.  This is the `not
self.host` test of `_make_request`. -/
def HostVal.truthy : HostVal → Bool
  | .str s => !(s == "")
  | .bool b => b

/-- Python truthiness of an optional string (the keyring token): `None`
and the empty string are falsy. -/
def strOptTruthy : Option String → Bool
  | Option.none => false
  | some s => !(s == "")

/-- Behaviour of the server on the `/files/check_files` POST: a raised
network or HTTP-status error, a 307 redirect, or a JSON diff body with the
two path lists. -/
inductive ServerResp where
  | raise
  | redirect
  | diff (missing mismatched : List String)
deriving DecidableEq

/-- Environment of one `_make_request` call: the settings file on disk,
the keyring token, and what the server would answer if reached. -/
structure RequestEnv where
  config : ConfigFile
  token : Option String
  response : ServerResp
deriving DecidableEq

/-- Outcome of `_make_request`: `ValueError("Server host not configured")`,
`ValueError("API token not found")`, or the network interaction itself. -/
inductive ReqOutcome where
  | hostError
  | tokenError
  | network (resp : ServerResp)
deriving DecidableEq

/-- `APIClient._make_request` (API_client.py lines 87-111): reload
`self.host` from the config file, raise if it is falsy, then fetch the
token and raise if that is falsy, and only then perform the HTTP request. -/
def make_request (env : RequestEnv) : ReqOutcome :=
  let host := load_host env.config
  if host.truthy = false then .hostError
  else if strOptTruthy env.token = false then .tokenError
  else .network env.response

/-- The Python values that flow out of `check_files` and into
`sync_saves_action` / `upload_files_streaming`: `None`, an int status
code, a string, or a list of path strings. -/
inductive PyVal where
  | none
  | int (n : Nat)
  | str (s : String)
  | list (l : List String)
deriving DecidableEq

/-- Python `==` between these values: structural within one type,
`False` across types (no custom `__eq__` is involved).  In particular an
int or a list never equals a string. -/
def pyEq : PyVal → PyVal → Bool
  | .none, .none => true
  | .int a, .int b => a == b
  | .str a, .str b => a == b
  | .list a, .list b => a == b
  | _, _ => false

/-- Python `f.lstrip(slash-and-backslash)`: drop all leading `/` and `\`
characters. -/
def pyLStrip (s : String) : String :=
  ⟨s.data.dropWhile (fun c => c == '/' || c == '\\')⟩

/-- `os.path.join(a, b)` for a `b` that is not absolute (it has been
`lstrip`-ped): insert a separator unless `a` already ends with one. -/
def pyJoin (a b : String) : String :=
  if a.data.getLastD ' ' == '/' then ⟨a.data ++ b.data⟩ else ⟨a.data ++ '/' :: b.data⟩

/-- Environment of one `check_files` call: whether `base_dir` is a
directory, the directory tree under it, the digest function, and the
request environment. -/
structure CheckEnv where
  dirExists : Bool
  baseDir : String
  tree : List FSTree
  digest : List Nat → String
  req : RequestEnv

/-- `APIClient.check_files` (API_client.py lines 113-149): return `[]` if
`base_dir` is not a directory; hash the tree; POST the digest map; on a
307 response return the int status code `307`; otherwise join each path of
`missing_on_server + mismatched_hashes` onto `base_dir` and return that
list.  Every exception on the way — including the `OSError` propagating
out of `hash_generator` and the `ValueError`s raised by `_make_request` —
is caught by the blanket `except` and turned into `[]`. -/
def check_files (env : CheckEnv) : PyVal :=
  if env.dirExists = false then .list []
  else
    match hash_generator env.digest env.baseDir env.tree with
    | .error _ => .list []
    | .ok _ =>
      match make_request env.req with
      | .hostError => .list []
      | .tokenError => .list []
      | .network .raise => .list []
      | .network .redirect => .int 307
      | .network (.diff missing mismatched) =>
        .list ((missing ++ mismatched).map (fun f => pyJoin env.baseDir (pyLStrip f)))

/-- Environment of one `upload_files_streaming` call: whether the upload
folder exists, the keyring token, the status the server answers with, and
whether streaming the archive succeeds (network errors and errors raised
inside the chunk generator both surface as exceptions during the POST). -/
structure UploadEnv where
  dirExists : Bool
  token : Option String
  serverStatus : Nat
  streamOk : Bool

/-- `APIClient.upload_files_streaming` (API_client.py lines 151-194):
return `None` if the folder is missing; `200` if `files_paths is None`;
then fetch the token and return `None` (no exception) if it is missing;
then stream the archive — the server's status code is returned whether or
not it is 200, and an exception escaping the POST itself yields `None`.
Errors raised while producing the archive do NOT escape: the
`for file in files_paths` loop runs inside the `writer()` thread of
`create_archive_chunk_generator` (file_manager.py lines 39-72), whose
blanket `except Exception` swallows them and only sets the
`exception_occurred` event, which is never checked — so when
`files_paths` is the int `307` the `TypeError` from iterating it is
swallowed in that thread, a near-empty archive body is streamed, and the
server's status is returned just as for a list; a string argument is
likewise iterated character-wise, each single-character path skipped as
nonexistent.  Note this method never consults or reloads the host and
performs no host check. -/
def upload_files_streaming (env : UploadEnv) (files : PyVal) : Option Nat :=
  if env.dirExists = false then Option.none
  else
    match files with
    | .none => some 200
    | _ =>
      if strOptTruthy env.token = false then Option.none
      else if env.streamOk then some env.serverStatus else Option.none

/-- `get_utc_time` (main_controller.py lines 11-21).  Dates are abstracted
to integers and the timezone conversion to an offset.  On `None` the call
`local_tz.localize(None)` raises `AttributeError` (pytz accesses
`dt.tzinfo`), so the function is modelled as failing there. -/
def get_utc_time (offsetMin : Int) : Option Int → Except String Int
  | Option.none => .error "AttributeError: NoneType object has no attribute tzinfo"
  | some d => .ok (d - offsetMin * 60)

/-- Externally visible calls made by the sync orchestrator, in order. -/
inductive SyncEvent where
  | checkFilesCall
  | uploadCall (files : PyVal)
  | rmtreeSaves
  | mkdirSaves
  | updateSyncTimeCall (date : Int)
deriving DecidableEq

/-- `download_saves_action` (main_controller.py lines 36-41): `rmtree` the
saves folder, recreate it, then call `api_client.download_files(game_name,
saves_path)` — which raises `TypeError` at the call site because
`download_files` has a third required parameter `delete_saves_folder`
(API_client.py line 196).  `update_sync_time` on line 40 is therefore
never reached. -/
def download_saves_action : List SyncEvent × Except String (Option Nat) :=
  ([.rmtreeSaves, .mkdirSaves],
   .error "TypeError: download_files missing 1 required positional argument delete_saves_folder")

/-- Environment of one `sync_saves_action` run: the game record's
`last_sync_date`, the timezone offset, the environments of the diff and
upload calls, and the `datetime.now()` value passed to
`update_sync_time`. -/
structure SyncEnv where
  lastSyncDate : Option Int
  tzOffsetMin : Int
  check : CheckEnv
  upload : UploadEnv
  nowDate : Int

/-- `sync_saves_action` (main_controller.py lines 23-34): read
`last_sync_date`, convert it with `get_utc_time` (raises on `None`), call
`check_files`, and branch on `files_data != "redirect"`: if unequal (which
is always the case, `check_files` returning only an int or a list), call
`upload_files_streaming` with whatever `check_files` returned and then
`update_sync_time(game_id, datetime.now())` unconditionally; otherwise
delegate to `download_saves_action`.  The first component is the trace of
calls performed, the second the returned value or the escaping
exception. -/
def sync_saves_action (env : SyncEnv) : List SyncEvent × Except String (Option Nat) :=
  match get_utc_time env.tzOffsetMin env.lastSyncDate with
  | .error e => ([], .error e)
  | .ok _ =>
    let files_data := check_files env.check
    if pyEq files_data (PyVal.str "redirect") = false then
      ([SyncEvent.checkFilesCall, SyncEvent.uploadCall files_data,
        SyncEvent.updateSyncTimeCall env.nowDate],
       .ok (upload_files_streaming env.upload files_data))
    else
      (SyncEvent.checkFilesCall :: download_saves_action.1, download_saves_action.2)

/-- `ProcessWatcher._normalize_name` (processes_watcher.py lines 32-37):
strip a trailing `.exe` (checked case-insensitively) or a trailing dot.
Python strings are modelled as code-point lists; `Char.toLower` matches
`str.lower` on the ASCII names involved. -/
def normalize_name (name : List Char) : List Char :=
  if (".exe".data).isSuffixOf (name.map Char.toLower) then name.take (name.length - 4)
  else if (".".data).isSuffixOf (name.map Char.toLower) then name.take (name.length - 1)
  else name

/-- `ProcessWatcher._check_process` (processes_watcher.py lines 39-50):
lowercase the normalized target and compare it against the lowercase
normalized name of every running process; processes that disappear or deny
access mid-iteration are simply not in `running`. -/
def check_process (process_name : List Char) (running : List (List Char)) : Bool :=
  let target := (normalize_name process_name).map Char.toLower
  running.any (fun p => (normalize_name p).map Char.toLower == target)

/-- What one iteration of the watcher's `while True` body does: complete
normally, or raise with a message. -/
inductive IterOutcome where
  | ok
  | raise (msg : String)
deriving DecidableEq

/-- `ProcessWatcher._monitor_processes` (processes_watcher.py lines
100-127) applied to a script of iteration behaviours: the `try`/`except`
wraps the whole `while True` loop, so iterations run in order until one
raises; that exception escapes the loop, is logged by the handler, and the
function returns.  Result: (number of iterations that ran, the logged
error if any).  An empty script means the scripted window passed without
incident (the real loop would keep going). -/
def monitor_processes : List IterOutcome → Nat × Option String
  | [] => (0, Option.none)
  | .ok :: rest => ((monitor_processes rest).1 + 1, (monitor_processes rest).2)
  | .raise m :: _ => (1, some m)

/-- Environment of one `get_archive_chunks` call: whether
`raise_for_status` passes, whether the `temp_data` directory already
exists, whether buffering the stream to disk completes, whether
`tarfile.open` accepts the buffered file, whether the destination exists,
and whether `extractall` succeeds. -/
structure ExtractEnv where
  responseOk : Bool
  tempDirExists : Bool
  streamOk : Bool
  archiveOk : Bool
  destExists : Bool
  extractOk : Bool
deriving DecidableEq

/-- Filesystem actions performed by `get_archive_chunks`. -/
inductive ExtractEvent where
  | mkdirTempDir
  | writeTempFile
  | openArchive
  | removeDest
  | mkdirDest
  | extractAll
  | removeTempFile
deriving DecidableEq

/-- `get_archive_chunks` (file_manager.py lines 83-102): check the
response status, create `temp_data` if needed, buffer the stream to
`temp_data/downloaded_saves.tar.gz`, open it as a tar archive, recreate
the destination (wiping it if it exists), extract, and finally
`os.remove` the temporary file.  There is no `try`/`finally`: any raise
skips every later step, including the removal.  Result: (actions
performed, whether an exception escaped).  `extractAll` appears in the
trace when extraction was attempted, even if it raised. -/
def get_archive_chunks (env : ExtractEnv) : List ExtractEvent × Bool :=
  if env.responseOk = false then ([], true)
  else
    let evs1 := (if env.tempDirExists then [] else [ExtractEvent.mkdirTempDir]) ++
      [ExtractEvent.writeTempFile]
    if env.streamOk = false then (evs1, true)
    else if env.archiveOk = false then (evs1, true)
    else
      let evs2 := evs1 ++ [ExtractEvent.openArchive] ++
        (if env.destExists then [ExtractEvent.removeDest, ExtractEvent.mkdirDest]
         else [ExtractEvent.mkdirDest])
      if env.extractOk = false then (evs2 ++ [ExtractEvent.extractAll], true)
      else (evs2 ++ [ExtractEvent.extractAll, ExtractEvent.removeTempFile], false)

/-- The temporary archive file is still on disk after the call: it was
created (written) and never removed. -/
def tempFileLeft (r : List ExtractEvent × Bool) : Bool :=
  r.1.contains ExtractEvent.writeTempFile && !(r.1.contains ExtractEvent.removeTempFile)

/-- A fixed digest function for concrete instances (the digest is a
parameter of the model; nothing below depends on its values). -/
def dW : List Nat → String := fun _ => "d"

/-- Request environment in which the server answers 307 on the diff call. -/
def reqRedirect : RequestEnv :=
  ⟨ConfigFile.present (some "http://host"), some "tok", ServerResp.redirect⟩

/-- Diff-call environment for a redirect answer over an empty saves dir. -/
def cenvRedirect : CheckEnv := ⟨true, "/s/saves", [], dW, reqRedirect⟩

/-- Upload environment in which everything succeeds with status 200. -/
def uenvOk : UploadEnv := ⟨true, some "tok", 200, true⟩

/-- Sync environment: prior sync recorded, server answers redirect. -/
def senvRedirect : SyncEnv := ⟨some 5, 0, cenvRedirect, uenvOk, 9⟩

/-- Diff-call environment in which the server answers an empty diff. -/
def cenvDiff : CheckEnv :=
  ⟨true, "/s/saves", [], dW, ⟨ConfigFile.present (some "http://host"), some "tok",
    ServerResp.diff [] []⟩⟩

/-- Upload environment in which streaming the archive fails. -/
def uenvFail : UploadEnv := ⟨true, some "tok", 200, false⟩

/-- Sync environment whose upload step fails. -/
def senvFail : SyncEnv := ⟨some 5, 0, cenvDiff, uenvFail, 9⟩

/-- Sync environment for a game that has never been synced
(`last_sync_date` is null). -/
def senvNull : SyncEnv := ⟨Option.none, 0, cenvDiff, uenvOk, 9⟩

/-- A two-file tree with a subdirectory, all files readable. -/
def tsW : List FSTree := [.file "a.txt" (some [1]), .dir "sub" [.file "b.txt" (some [2])]]

/-- A tree whose only file is unreadable. -/
def tsU : List FSTree := [FSTree.file "a.txt" Option.none]

/-- Diff-call environment over a tree containing an unreadable file. -/
def cenvUnreadable : CheckEnv := ⟨true, "/home/user/saves", tsU, dW,
  ⟨ConfigFile.present (some "http://host"), some "tok", ServerResp.diff [] []⟩⟩

/-- Sync environment whose hashing step hits an unreadable file. -/
def senvUnreadable : SyncEnv := ⟨some 1, 0, cenvUnreadable, uenvOk, 3⟩

theorem occurs_true_of_pref {sep l : List Char} (h : sep <+: l) : occurs sep l = true := by
  cases l <;> simp [occurs, splitFirst, h]

theorem occurs_cons {sep t : List Char} (c : Char) (h : occurs sep t = true) :
    occurs sep (c :: t) = true := by
  by_cases hp : sep <+: (c :: t)
  · exact occurs_true_of_pref hp
  · simp only [occurs, splitFirst] at h ⊢
    rw [if_neg (by simpa using hp)]
    simpa using h

theorem splitFirst_eq_none {sep l : List Char} (h : occurs sep l = false) :
    splitFirst sep l = none := by
  unfold occurs at h
  cases hs : splitFirst sep l
  · rfl
  · rw [hs] at h; simp at h

theorem occurs_nil (l : List Char) : occurs [] l = true := by
  cases l with
  | nil => decide
  | cons c t => simp [occurs, splitFirst]

theorem dropLast_cons_ne {l : List Char} (c : Char) (h : l ≠ []) :
    (c :: l).dropLast = c :: l.dropLast := by
  cases l with
  | nil => exact absurd rfl h
  | cons d t => rfl

theorem pref_of_pref_append {sep u v : List Char} (h : sep <+: u ++ v)
    (hl : sep.length ≤ u.length) : sep <+: u := by
  obtain ⟨t, ht⟩ := h
  have h1 : (u ++ v).take sep.length = u.take sep.length := by
    rw [List.take_append_eq_append_take]
    have h0 : sep.length - u.length = 0 := by omega
    simp [h0]
  have h2 : u.take sep.length = sep := by
    rw [← h1, ← ht, List.take_left]
  have h3 : u.take sep.length ++ u.drop sep.length = u := List.take_append_drop _ u
  rw [h2] at h3
  exact ⟨u.drop sep.length, h3⟩

theorem splitFirst_self (sep b : List Char) : splitFirst sep (sep ++ b) = some ([], b) := by
  cases hs : sep ++ b with
  | nil =>
    obtain ⟨h1, h2⟩ := List.append_eq_nil.mp hs
    subst h1; subst h2; decide
  | cons c t =>
    have hp : sep <+: (c :: t) := hs ▸ List.prefix_append sep b
    have hd : (c :: t).drop sep.length = b := by rw [← hs]; exact List.drop_left sep b
    simp only [splitFirst]
    rw [if_pos (by simpa using hp), hd]

theorem splitFirst_append (sep b : List Char) :
    ∀ a : List Char, occurs sep ((a ++ sep).dropLast) = false →
      splitFirst sep ((a ++ sep) ++ b) = some (a, b) := by
  intro a
  induction a with
  | nil => intro _; simpa using splitFirst_self sep b
  | cons c a' ih =>
    intro hA
    by_cases hsep : sep = []
    · subst hsep; rw [occurs_nil] at hA; cases hA
    have hne : a' ++ sep ≠ [] := fun hh => hsep (List.append_eq_nil.mp hh).2
    have hdrop : ((c :: a') ++ sep).dropLast = c :: (a' ++ sep).dropLast := by
      simpa using dropLast_cons_ne c hne
    have hAc : occurs sep (c :: (a' ++ sep).dropLast) = false := by rw [← hdrop]; exact hA
    have hA' : occurs sep ((a' ++ sep).dropLast) = false := by
      cases h' : occurs sep ((a' ++ sep).dropLast)
      · rfl
      · exact absurd (occurs_cons c h') (by simp [hAc])
    have hnp : ¬ (sep <+: ((c :: a') ++ sep) ++ b) := by
      intro hp
      have hu : (c :: a') ++ sep ≠ [] := by simp
      have hwhole : ((c :: a') ++ sep) ++ b =
          ((c :: a') ++ sep).dropLast ++ ([((c :: a') ++ sep).getLast hu] ++ b) := by
        rw [← List.append_assoc, List.dropLast_append_getLast hu]
      have hlen : sep.length ≤ (((c :: a') ++ sep).dropLast).length := by
        rw [hdrop]
        have h0 : (a' ++ sep).length ≥ 1 := by
          cases hq : a' ++ sep
          · exact absurd hq hne
          · simp
        simp only [List.length_append] at h0
        simp only [List.length_cons, List.length_dropLast, List.length_append]
        omega
      have hp2 : sep <+: ((c :: a') ++ sep).dropLast :=
        pref_of_pref_append (hwhole ▸ hp) hlen
      have h3 := occurs_true_of_pref hp2
      rw [hdrop] at h3
      exact absurd h3 (by simp [hAc])
    show splitFirst sep (c :: ((a' ++ sep) ++ b)) = some (c :: a', b)
    simp only [splitFirst]
    rw [if_neg (by simpa using hnp)]
    rw [ih hA']
    rfl

theorem pySplitAux_no_occurs {sep s : List Char} (h : occurs sep s = false) :
    ∀ fuel, pySplitAux sep fuel s = [s] := by
  intro fuel
  cases fuel with
  | zero => rfl
  | succ n => simp [pySplitAux, splitFirst_eq_none h]

theorem pySplit_append (sep a b : List Char)
    (hA : occurs sep ((a ++ sep).dropLast) = false)
    (hB : occurs sep b = false) :
    pySplit sep ((a ++ sep) ++ b) = [a, b] := by
  by_cases hsep : sep = []
  · subst hsep; rw [occurs_nil] at hA; cases hA
  unfold pySplit
  cases hl : ((a ++ sep) ++ b).length with
  | zero =>
    exfalso
    have hq : (a ++ sep) ++ b = [] := List.length_eq_zero.mp hl
    exact hsep (List.append_eq_nil.mp ((List.append_eq_nil.mp hq).1)).2
  | succ n =>
    simp only [pySplitAux, splitFirst_append sep b a hA]
    simp [pySplitAux_no_occurs hB]

theorem dictInsert_not_mem {m : List (List Char × String)} {k : List Char} (v : String)
    (h : k ∉ m.map Prod.fst) : dictInsert m k v = m ++ [(k, v)] := by
  unfold dictInsert
  rw [if_neg]
  intro hc
  obtain ⟨p, hp, he⟩ := List.any_eq_true.mp hc
  exact h (by
    have hpk : p.1 = k := by simpa using he
    exact hpk ▸ List.mem_map_of_mem Prod.fst hp)

theorem foldl_dictInsert :
    ∀ (pairs acc : List (List Char × String)),
      (pairs.map Prod.fst).Nodup →
      (∀ k ∈ pairs.map Prod.fst, k ∉ acc.map Prod.fst) →
      pairs.foldl (fun m p => dictInsert m p.1 p.2) acc = acc ++ pairs := by
  intro pairs
  induction pairs with
  | nil => intro acc _ _; simp
  | cons p rest ih =>
    intro acc hnd hdis
    obtain ⟨k, v⟩ := p
    simp only [List.foldl_cons]
    rw [dictInsert_not_mem v (hdis k (by simp))]
    rw [List.map_cons] at hnd
    obtain ⟨hnd1, hnd2⟩ := List.nodup_cons.mp hnd
    rw [ih (acc ++ [(k, v)]) hnd2 ?dis]
    · simp
    case dis =>
      intro k2 hk2
      simp only [List.map_append, List.mem_append]
      rintro (hin | hin)
      · exact hdis k2 (by simp [hk2]) hin
      · have hk2k : k2 = k := by simpa using hin
        exact hnd1 (hk2k ▸ hk2)

theorem scanList_spec (digest : List Nat → String) (parent dirName : List Char)
    (hA : occurs dirName (((parent ++ ['/']) ++ dirName).dropLast) = false) :
    ∀ (pre : List Char) (ts : List FSTree),
      ∀ acc : List (List Char × String),
        allReadable ts = true →
        (∀ k ∈ (specPairs digest pre ts).map Prod.fst, occurs dirName k = false) →
        scanList digest dirName (((parent ++ ['/']) ++ dirName) ++ pre) acc ts =
          .ok ((specPairs digest pre ts).foldl (fun m p => dictInsert m p.1 p.2) acc) := by
  intro pre ts
  induction pre, ts using specPairs.induct digest with
  | case1 pre =>
    intro acc _ _
    simp [scanList, specPairs]
  | case2 pre n c rest ih =>
    intro acc hr hk
    simp only [allReadable, Bool.and_eq_true] at hr
    obtain ⟨cc, rfl⟩ := Option.isSome_iff_exists.mp hr.1
    have hkhead : occurs dirName (pre ++ '/' :: n.data) = false := by
      apply hk
      simp [specPairs]
    have hpath : (((parent ++ ['/']) ++ dirName) ++ pre) ++ '/' :: n.data =
        ((parent ++ ['/']) ++ dirName) ++ (pre ++ '/' :: n.data) := by
      simp [List.append_assoc]
    have hkey : (pySplit dirName ((((parent ++ ['/']) ++ dirName) ++ pre) ++ '/' :: n.data)).getD 1 [] =
        pre ++ '/' :: n.data := by
      rw [hpath, pySplit_append dirName (parent ++ ['/']) (pre ++ '/' :: n.data) hA hkhead]
      rfl
    simp only [scanList]
    rw [hkey]
    rw [ih (dictInsert acc (pre ++ '/' :: n.data) (digest cc)) hr.2 ?hkrest]
    · simp [specPairs]
    case hkrest =>
      intro k hk2
      apply hk
      simp only [specPairs, List.map_cons, List.mem_cons]
      exact Or.inr hk2
  | case3 pre n ch rest ih1 ih2 =>
    intro acc hr hk
    simp only [allReadable, Bool.and_eq_true] at hr
    have hkch : ∀ k ∈ (specPairs digest (pre ++ '/' :: n.data) ch).map Prod.fst,
        occurs dirName k = false := by
      intro k hk2
      apply hk
      simp only [specPairs, List.map_append, List.mem_append]
      exact Or.inl hk2
    have hkrest : ∀ k ∈ (specPairs digest pre rest).map Prod.fst,
        occurs dirName k = false := by
      intro k hk2
      apply hk
      simp only [specPairs, List.map_append, List.mem_append]
      exact Or.inr hk2
    have hpath : (((parent ++ ['/']) ++ dirName) ++ pre) ++ '/' :: n.data =
        ((parent ++ ['/']) ++ dirName) ++ (pre ++ '/' :: n.data) := by
      simp [List.append_assoc]
    simp only [scanList]
    rw [hpath, ih1 acc hr.1 hkch]
    show scanList digest dirName (((parent ++ ['/']) ++ dirName) ++ pre)
        (List.foldl (fun m p => dictInsert m p.1 p.2) acc
          (specPairs digest (pre ++ '/' :: n.data) ch)) rest = _
    rw [ih2 _ hr.2 hkrest]
    simp [specPairs, List.foldl_append]

theorem scanList_ok_of_none (digest : List Nat → String) (dirName : List Char) :
    ∀ (path : List Char) (ts : List FSTree),
      firstUnreadable path ts = none →
      ∀ acc, ∃ acc2, scanList digest dirName path acc ts = .ok acc2 := by
  intro path ts
  induction path, ts using firstUnreadable.induct with
  | case1 path => intro _ acc; exact ⟨acc, by simp [scanList]⟩
  | case2 path n rest => intro h acc; simp [firstUnreadable] at h
  | case3 path n c rest ih =>
    intro h acc
    simp only [firstUnreadable] at h
    simp only [scanList]
    exact ih h _
  | case4 path n ch rest p hm ih =>
    intro h acc
    simp only [firstUnreadable, hm] at h
    exact Option.noConfusion h
  | case5 path n ch rest hm ihch ihrest =>
    intro h acc
    simp only [firstUnreadable, hm] at h
    obtain ⟨acc2, hch⟩ := ihch hm acc
    obtain ⟨acc3, hrest⟩ := ihrest h acc2
    refine ⟨acc3, ?_⟩
    simp only [scanList, hch]
    exact hrest

theorem scanList_error_of_some (digest : List Nat → String) (dirName : List Char) :
    ∀ (path : List Char) (ts : List FSTree) (p : List Char),
      firstUnreadable path ts = some p →
      ∀ acc, scanList digest dirName path acc ts = .error p := by
  intro path ts
  induction path, ts using firstUnreadable.induct with
  | case1 path => intro p h acc; simp [firstUnreadable] at h
  | case2 path n rest =>
    intro p h acc
    simp only [firstUnreadable, Option.some.injEq] at h
    simp [scanList, h]
  | case3 path n c rest ih =>
    intro p h acc
    simp only [firstUnreadable] at h
    simp only [scanList]
    exact ih p h _
  | case4 path n ch rest q hm ih =>
    intro p h acc
    simp only [firstUnreadable, hm, Option.some.injEq] at h
    subst h
    simp only [scanList, ih q hm acc]
  | case5 path n ch rest hm ihch ihrest =>
    intro p h acc
    simp only [firstUnreadable, hm] at h
    obtain ⟨acc2, hch⟩ := scanList_ok_of_none digest dirName (path ++ '/' :: n.data) ch hm acc
    simp only [scanList, hch]
    exact ihrest p h acc2

theorem hash_generator_error
    (digest : List Nat → String) (baseDir : String) (ts : List FSTree) (p : List Char)
    (hp : firstUnreadable baseDir.data ts = some p) :
    hash_generator digest baseDir ts = .error p := by
  unfold hash_generator
  exact scanList_error_of_some digest _ baseDir.data ts p hp []

theorem check_files_not_str (env : CheckEnv) (s : String) :
    pyEq (check_files env) (PyVal.str s) = false := by
  unfold check_files
  split
  · rfl
  · split
    · rfl
    · split <;> rfl

/-- C1: the claim says that when the diff step answers with the 307
redirect, `sync_saves_action` takes the full-download path, and otherwise
the upload path.  The code compares `files_data != "redirect"`, but
`check_files` returns the int `307` on a redirect (and a list otherwise),
never the string `"redirect"`; an int is never `==` a string in Python, so
on a redirect the orchestrator takes the UPLOAD branch with `307` as the
file list.  The `TypeError` from iterating that int is raised inside the
archive producer's writer thread and swallowed by its blanket `except`
(file_manager.py lines 68-70; `exception_occurred` is never checked), so
a near-empty archive is streamed, the server's status code is returned,
and `update_sync_time` runs — the client uploads an essentially empty
archive over the game's remote saves instead of downloading them.  The
download branch is dead code.  This theorem evaluates the model at the
failing input: the server answers 307, `check_files` returns `int 307`,
and the trace shows the upload call with `307`, no download events, and
the server-status outcome. -/
theorem sync_redirect_takes_upload_path :
    check_files cenvRedirect = PyVal.int 307 ∧
    sync_saves_action senvRedirect =
      ([SyncEvent.checkFilesCall, SyncEvent.uploadCall (PyVal.int 307),
        SyncEvent.updateSyncTimeCall 9], .ok (some 200)) := by
  have h1 : check_files cenvRedirect = PyVal.int 307 := by
    simp [check_files, cenvRedirect, reqRedirect, make_request, load_host, HostVal.truthy,
      strOptTruthy, hash_generator, scanList]
  refine ⟨h1, ?_⟩
  simp [sync_saves_action, senvRedirect, get_utc_time, h1, pyEq, upload_files_streaming, uenvOk,
    strOptTruthy]

/-- C2 (amended): for every sync invocation with a non-null
`last_sync_date`, the orchestrator performs exactly the diff call, then
the upload call, then the `update_sync_time` call — the timestamp update
happens strictly after the transfer step but UNCONDITIONALLY, also when
the transfer failed (the original claim's "only after a successful
transfer" is refuted by `failed_upload_still_updates_sync_time`). -/
theorem sync_time_update_follows_transfer_unconditionally
    (env : SyncEnv) (d : Int) (h : env.lastSyncDate = some d) :
    sync_saves_action env =
      ([SyncEvent.checkFilesCall, SyncEvent.uploadCall (check_files env.check),
        SyncEvent.updateSyncTimeCall env.nowDate],
       .ok (upload_files_streaming env.upload (check_files env.check))) := by
  unfold sync_saves_action
  rw [h]
  simp [get_utc_time, check_files_not_str]

/-- C2 witness: the general theorem applied to the concrete environment
`senvRedirect`, whose `last_sync_date` is `some 5`. -/
theorem sync_time_update_follows_transfer_unconditionally_witness :
    senvRedirect.lastSyncDate = some 5 ∧
    sync_saves_action senvRedirect =
      ([SyncEvent.checkFilesCall, SyncEvent.uploadCall (check_files senvRedirect.check),
        SyncEvent.updateSyncTimeCall senvRedirect.nowDate],
       .ok (upload_files_streaming senvRedirect.upload (check_files senvRedirect.check))) :=
  ⟨rfl, sync_time_update_follows_transfer_unconditionally senvRedirect 5 rfl⟩

/-- C2 counterexample: in `senvFail` the upload step fails (the streamed
POST raises, `upload_files_streaming` returns `None`), yet the trace
contains the `update_sync_time` call — a failed transfer does NOT leave
`last_sync_date` unchanged, refuting the claim as stated. -/
theorem failed_upload_still_updates_sync_time :
    (sync_saves_action senvFail).2 = .ok Option.none ∧
    SyncEvent.updateSyncTimeCall 9 ∈ (sync_saves_action senvFail).1 := by
  have h1 : check_files cenvDiff = PyVal.list [] := by
    simp [check_files, cenvDiff, make_request, load_host, HostVal.truthy, strOptTruthy,
      hash_generator, scanList]
  have h2 : sync_saves_action senvFail =
      ([SyncEvent.checkFilesCall, SyncEvent.uploadCall (PyVal.list []),
        SyncEvent.updateSyncTimeCall 9], .ok Option.none) := by
    simp [sync_saves_action, senvFail, get_utc_time, h1, pyEq, upload_files_streaming, uenvFail,
      strOptTruthy]
  rw [h2]
  simp

/-- C3 (amended): for every game whose `last_sync_date` is null,
`sync_saves_action` raises the `AttributeError` coming out of
`get_utc_time` (pytz `localize(None)`) before performing any diff, upload
or download call — it does not surface a distinguished first-sync decision
to the caller; the explicit download-or-upload choice is implemented in
the GUI layer (games_dashboard.py lines 593-651), which inspects
`last_sync_date` itself BEFORE invoking the orchestrator. -/
theorem sync_with_null_date_errors_before_transfer (env : SyncEnv)
    (h : env.lastSyncDate = Option.none) :
    sync_saves_action env =
      ([], .error "AttributeError: NoneType object has no attribute tzinfo") := by
  unfold sync_saves_action
  rw [h]
  rfl

/-- C3 counterexample: at the concrete environment `senvNull` (null
`last_sync_date`) the orchestrator performs no call at all and escapes
with a generic `AttributeError` — no first-sync condition requiring a user
decision is surfaced, refuting the claim as stated about
`sync_saves_action`. -/
theorem null_last_sync_date_crashes_sync :
    sync_saves_action senvNull =
      ([], .error "AttributeError: NoneType object has no attribute tzinfo") := rfl

/-- C3 witness: the general theorem applied to `senvNull`. -/
theorem sync_with_null_date_errors_before_transfer_witness :
    senvNull.lastSyncDate = Option.none ∧
    sync_saves_action senvNull =
      ([], .error "AttributeError: NoneType object has no attribute tzinfo") :=
  ⟨rfl, sync_with_null_date_errors_before_transfer senvNull rfl⟩

/-- C4 (amended): `_make_request` reloads the host from the configuration
file on every call and raises the two distinct `ValueError`s before any
network interaction — `hostError` exactly when the reloaded host value is
falsy, `tokenError` exactly when the host passed but the token is missing
or empty, and the network is reached exactly when both checks pass.
However (second conjunct) `upload_files_streaming` bypasses this scheme
entirely: with a missing token it returns `None` instead of raising a
configuration error, and it performs no host reload or host check at all;
moreover an ABSENT configuration file makes `load_host` return `True`, so
the host check passes with no host configured (see
`absent_config_reaches_network`). -/
theorem make_request_config_check_characterization :
    (∀ env : RequestEnv,
      (make_request env = ReqOutcome.hostError ↔ (load_host env.config).truthy = false) ∧
      (make_request env = ReqOutcome.tokenError ↔
        ((load_host env.config).truthy = true ∧ strOptTruthy env.token = false)) ∧
      (∀ r, make_request env = ReqOutcome.network r ↔
        ((load_host env.config).truthy = true ∧ strOptTruthy env.token = true ∧
          r = env.response))) ∧
    upload_files_streaming ⟨true, Option.none, 200, true⟩ (PyVal.list ["a"]) = Option.none := by
  constructor
  · intro env
    unfold make_request
    cases h1 : (load_host env.config).truthy <;> cases h2 : strOptTruthy env.token <;>
      simp [h1, h2, eq_comm]
  · rfl

/-- C4 counterexample: with no configuration file at all (host surely not
configured) and a token present, `_make_request` proceeds straight to the
network — no "Server host not configured" error is raised before the
network call; and `upload_files_streaming` with a missing token returns
`None` rather than raising a distinct caller-visible configuration
error.  Both conjuncts refute the claim as stated. -/
theorem absent_config_reaches_network :
    make_request ⟨ConfigFile.absent, some "tok", ServerResp.redirect⟩ =
      ReqOutcome.network ServerResp.redirect ∧
    upload_files_streaming ⟨true, Option.none, 200, true⟩ (PyVal.list ["a"]) = Option.none :=
  ⟨rfl, rfl⟩

/-- C5 counterexample: for root `/home/user/saves` containing the single
file `a.txt`, the code produces the key `/a.txt` — the path relative to
the ROOT with a leading slash — whereas the path relative to the root's
PARENT with the leading separator retained would be `/saves/a.txt`.  The
two differ, refuting the claim's key description. -/
theorem hash_generator_key_not_parent_relative :
    hash_generator dW "/home/user/saves" [FSTree.file "a.txt" (some [1])] =
      .ok [("/a.txt".data, "d")] ∧ "/a.txt".data ≠ "/saves/a.txt".data := by
  constructor
  · simp [hash_generator, scanList, pySplit, pySplitAux, splitFirst, dictInsert, dW]
  · decide

/-- C5 (amended): for a root directory `parent/dirName` whose base name
`dirName` occurs in each walked file path only as the root's own last
component (hypotheses `hA` and `hkeys`: it does not occur earlier inside
`parent ++ "/" ++ dirName` minus its last character, nor anywhere in a
file's root-relative path), with all files readable and distinct
root-relative paths, `hash_generator` returns exactly one entry per
regular file of the subtree in walk order, keyed by the file's path
relative to the ROOT (not the root's parent) with the leading forward
slash retained, and valued at the digest of the file's content — i.e. it
equals the spec-side map `specPairs`.  The key is literally
`entry.path.split(dir_name)[1]`, so outside these hypotheses (the base
name recurring in a path) the key is not root-relative. -/
theorem hash_generator_root_relative_keys
    (digest : List Nat → String) (baseDir : String) (parent dirName : List Char)
    (ts : List FSTree)
    (hdecomp : baseDir.data = (parent ++ ['/']) ++ dirName)
    (hlast : (pySplit ['/'] baseDir.data).getLastD [] = dirName)
    (hA : occurs dirName (((parent ++ ['/']) ++ dirName).dropLast) = false)
    (hread : allReadable ts = true)
    (hkeys : ∀ k ∈ (specPairs digest [] ts).map Prod.fst, occurs dirName k = false)
    (hnodup : ((specPairs digest [] ts).map Prod.fst).Nodup) :
    hash_generator digest baseDir ts = .ok (specPairs digest [] ts) := by
  unfold hash_generator
  rw [hlast, hdecomp]
  have h1 := scanList_spec digest parent dirName hA [] ts [] hread hkeys
  rw [List.append_nil] at h1
  rw [h1]
  rw [foldl_dictInsert _ _ hnodup (by simp)]
  simp

/-- C5 witness: the amended theorem applied to the concrete root
`/home/user/saves` and the two-file tree `tsW` (one file at the top level,
one in a subdirectory), with every hypothesis discharged by evaluation. -/
theorem hash_generator_root_relative_keys_witness :
    "/home/user/saves".data = ("/home/user".data ++ ['/']) ++ "saves".data ∧
    (pySplit ['/'] "/home/user/saves".data).getLastD [] = "saves".data ∧
    occurs "saves".data ((("/home/user".data ++ ['/']) ++ "saves".data).dropLast) = false ∧
    allReadable tsW = true ∧
    (∀ k ∈ (specPairs dW [] tsW).map Prod.fst, occurs "saves".data k = false) ∧
    ((specPairs dW [] tsW).map Prod.fst).Nodup ∧
    hash_generator dW "/home/user/saves" tsW = .ok (specPairs dW [] tsW) :=
  ⟨by decide, by decide, by decide, by simp [tsW, allReadable],
   by simp only [tsW, specPairs]; decide,
   by simp only [tsW, specPairs]; decide,
   hash_generator_root_relative_keys dW "/home/user/saves" "/home/user".data "saves".data tsW
     (by decide) (by decide) (by decide) (by simp [tsW, allReadable])
     (by simp only [tsW, specPairs]; decide) (by simp only [tsW, specPairs]; decide)⟩

/-- C6 (amended): when the walk meets an unreadable file, `hash_generator`
itself does fail the whole hash operation with an error naming that file's
path, returning no partial map — but the error does NOT abort the sync
attempt: `check_files` catches every exception and returns the empty
list, so the caller sees a normal (empty) upload list instead of an I/O
error.  The hypothesis on the root's base name keeps the model inside the
regime where Python's `split(dir_name)[1]` indexing cannot raise first. -/
theorem hash_generator_error_swallowed_by_check_files
    (digest : List Nat → String) (baseDir : String) (ts : List FSTree) (p : List Char)
    (req : RequestEnv)
    (_hname : (pySplit ['/'] baseDir.data).getLastD [] ≠ [])
    (hp : firstUnreadable baseDir.data ts = some p) :
    hash_generator digest baseDir ts = .error p ∧
    check_files ⟨true, baseDir, ts, digest, req⟩ = PyVal.list [] := by
  have h1 : hash_generator digest baseDir ts = .error p :=
    hash_generator_error digest baseDir ts p hp
  refine ⟨h1, ?_⟩
  simp [check_files, h1]

/-- C6 witness: the amended theorem applied to the root
`/home/user/saves` and the tree `tsU` whose only file is unreadable. -/
theorem hash_generator_error_swallowed_by_check_files_witness :
    ((pySplit ['/'] "/home/user/saves".data).getLastD [] ≠ []) ∧
    firstUnreadable "/home/user/saves".data tsU = some "/home/user/saves/a.txt".data ∧
    (hash_generator dW "/home/user/saves" tsU = .error "/home/user/saves/a.txt".data ∧
     check_files ⟨true, "/home/user/saves", tsU, dW, reqRedirect⟩ = PyVal.list []) :=
  ⟨by decide, by simp [tsU, firstUnreadable],
   hash_generator_error_swallowed_by_check_files dW "/home/user/saves" tsU
     "/home/user/saves/a.txt".data reqRedirect (by decide) (by simp [tsU, firstUnreadable])⟩

/-- C6 counterexample: with an unreadable file in the subtree,
`check_files` returns the ordinary value `[]` (no error is surfaced to the
caller), and the whole sync run proceeds to the upload step and to
`update_sync_time`, finishing with status 200 — the filesystem error
aborts nothing, refuting the claim as stated. -/
theorem unreadable_file_sync_proceeds :
    check_files cenvUnreadable = PyVal.list [] ∧
    sync_saves_action senvUnreadable =
      ([SyncEvent.checkFilesCall, SyncEvent.uploadCall (PyVal.list []),
        SyncEvent.updateSyncTimeCall 3], .ok (some 200)) := by
  have h0 : hash_generator dW "/home/user/saves" tsU =
      .error "/home/user/saves/a.txt".data := by
    simp [hash_generator, scanList, tsU]
  have h1 : check_files cenvUnreadable = PyVal.list [] := by
    simp [check_files, cenvUnreadable, h0]
  refine ⟨h1, ?_⟩
  simp [sync_saves_action, senvUnreadable, get_utc_time, h1, pyEq, upload_files_streaming,
    uenvOk, strOptTruthy]

/-- C7 (amended): the `try`/`except` of `_monitor_processes` wraps the
whole `while True` loop, so the first iteration that raises has its error
logged and ENDS the loop: for any run consisting of error-free iterations
followed by a raising one, exactly the iterations up to and including the
raising one execute, whatever was scheduled afterwards — a single failing
poll terminates the watcher instead of letting it continue to the next
scan. -/
theorem watcher_error_terminates_loop (pre : List IterOutcome) (m : String)
    (post : List IterOutcome) (h : ∀ i ∈ pre, i = IterOutcome.ok) :
    monitor_processes (pre ++ IterOutcome.raise m :: post) = (pre.length + 1, some m) := by
  induction pre with
  | nil => simp [monitor_processes]
  | cons i rest ih =>
    have hi : i = IterOutcome.ok := h i (by simp)
    subst hi
    have ihr := ih (fun j hj => h j (by simp [hj]))
    simp [monitor_processes, ihr]

/-- C7 counterexample: a run scripted as a raising iteration followed by a
healthy one executes only the first iteration (the error is logged and the
loop ends), while two healthy iterations both execute — the loop does not
continue past an uncaught error, refuting the claim as stated. -/
theorem watcher_single_raise_stops_loop :
    monitor_processes [IterOutcome.raise "boom", IterOutcome.ok] = (1, some "boom") ∧
    monitor_processes [IterOutcome.ok, IterOutcome.ok] = (2, Option.none) := ⟨rfl, rfl⟩

/-- C7 witness: the amended theorem applied to one healthy iteration, a
raising iteration, and one scheduled-but-never-run iteration. -/
theorem watcher_error_terminates_loop_witness :
    (∀ i ∈ [IterOutcome.ok], i = IterOutcome.ok) ∧
    monitor_processes [IterOutcome.ok, IterOutcome.raise "E", IterOutcome.ok] = (2, some "E") :=
  ⟨by decide, watcher_error_terminates_loop [IterOutcome.ok] "E" [IterOutcome.ok] (by decide)⟩

/-- C8: the watcher's match predicate holds exactly when some running
process name and the tracked name agree after normalization (strip a
trailing `.exe` checked case-insensitively, or a trailing dot) and
lowercasing — and in particular a binding to `game.exe` matches a running
process literally named `GAME`. -/
theorem process_match_normalized_case_insensitive :
    (∀ (target : List Char) (running : List (List Char)),
      check_process target running = true ↔
        ∃ p ∈ running, (normalize_name p).map Char.toLower =
          (normalize_name target).map Char.toLower) ∧
    check_process "game.exe".data ["GAME".data] = true := by
  constructor
  · intro target running
    simp [check_process, List.any_eq_true]
  · decide

/-- C9 counterexample: when the buffered download is not a valid gzip/tar
archive, `tarfile.open` raises and the function escapes WITHOUT removing
the temporary file — `temp_data/downloaded_saves.tar.gz` is left on disk,
refuting the claim that the temporary file is deleted unconditionally on
the error path. -/
theorem extract_failure_leaks_temp_file :
    tempFileLeft (get_archive_chunks ⟨true, true, true, false, false, true⟩) = true ∧
    (get_archive_chunks ⟨true, true, true, false, false, true⟩).2 = true := by decide

/-- C9 (amended): the temporary archive file is left on disk exactly when
it was created and any later step failed (stream buffering, archive open,
or extraction); equivalently, it is removed only on the fully successful
path — `os.remove` is the last statement and no `try`/`finally` protects
it. -/
theorem temp_file_removed_iff_success :
    ∀ env : ExtractEnv,
      tempFileLeft (get_archive_chunks env) = true ↔
        (env.responseOk = true ∧
          (env.streamOk = false ∨ env.archiveOk = false ∨ env.extractOk = false)) := by
  intro env
  rcases env with ⟨r, t, s, a, d, e⟩
  cases r <;> cases t <;> cases s <;> cases a <;> cases d <;> cases e <;> decide

/-- C10: when the configuration file does not exist, `load_host` returns
the boolean `True` rather than an empty or absent host, so the `not
self.host` check in `_make_request` passes and the "Server host not
configured" error is never raised, whatever the token state. -/
theorem load_host_absent_config_skips_host_error :
    ∀ (tok : Option String) (resp : ServerResp),
      load_host ConfigFile.absent = HostVal.bool true ∧
      make_request ⟨ConfigFile.absent, tok, resp⟩ ≠ ReqOutcome.hostError := by
  intro tok resp
  refine ⟨rfl, ?_⟩
  unfold make_request
  cases htok : strOptTruthy tok <;> simp [load_host, HostVal.truthy, htok]
